import Mathlib

/-!
Verification of the larixite structure-to-cluster conversion pipeline.

larixite converts crystallographic structure data (CIF files, an SQLite-backed
mineralogical database, or raw XYZ coordinate lists) into atomic-cluster
descriptions used as input for XAS simulation codes (FEFF, FDMNES).

The development embeds, in exact rational arithmetic, the crystallographic
data bundled with the repository (the Zincite CIF, COD entry 1011259) and a
model of the conversion pipeline.  The Python package sources
(larixite.struct, larixite.fdmnes) are not part of the repository snapshot
under verification — only their callers (the FDMNES workflow notebook), the
bundled CIF data and the project metadata are — so the pipeline operations
are modelled from the words of the specification, as indicated in each
doc comment.

Rational arithmetic is routed through wrappers built on Rat.divInt so that
every definition evaluates by kernel reduction; the bridge lemmas qAdd_eq,
qSub_eq, qMul_eq, qOfInt_eq and qFloor_eq prove that the wrappers are
exactly the field operations and floor of ℚ.
-/

namespace Larixite

/-! ### Exact rational arithmetic layer -/

/-- Addition on ℚ expressed through Rat.divInt (kernel-reducible). -/
def qAdd (a b : ℚ) : ℚ := Rat.divInt (a.num * b.den + b.num * a.den) (a.den * b.den)

/-- Subtraction on ℚ expressed through Rat.divInt (kernel-reducible). -/
def qSub (a b : ℚ) : ℚ := Rat.divInt (a.num * b.den - b.num * a.den) (a.den * b.den)

/-- Multiplication on ℚ expressed through Rat.divInt (kernel-reducible). -/
def qMul (a b : ℚ) : ℚ := Rat.divInt (a.num * b.num) (a.den * b.den)

/-- Floor of a rational number (kernel-reducible). -/
def qFloor (q : ℚ) : ℤ := q.num / q.den

/-- The rational number given by an integer (kernel-reducible). -/
def qOfInt (n : ℤ) : ℚ := Rat.divInt n 1

theorem qAdd_eq (a b : ℚ) : qAdd a b = a + b := by
  rw [qAdd]
  conv_rhs => rw [← Rat.num_divInt_den a, ← Rat.num_divInt_den b]
  rw [Rat.divInt_add_divInt _ _ (by exact_mod_cast a.den_nz) (by exact_mod_cast b.den_nz)]

theorem qSub_eq (a b : ℚ) : qSub a b = a - b := by
  rw [qSub]
  conv_rhs => rw [← Rat.num_divInt_den a, ← Rat.num_divInt_den b]
  rw [Rat.divInt_sub_divInt _ _ (by exact_mod_cast a.den_nz) (by exact_mod_cast b.den_nz)]

theorem qMul_eq (a b : ℚ) : qMul a b = a * b := by
  rw [qMul]
  conv_rhs => rw [← Rat.num_divInt_den a, ← Rat.num_divInt_den b]
  rw [Rat.divInt_mul_divInt']

theorem qFloor_eq (q : ℚ) : qFloor q = Int.floor q := by
  rw [qFloor, Rat.floor_def]

theorem qOfInt_eq (n : ℤ) : qOfInt n = (n : ℚ) := by
  rw [qOfInt, Rat.divInt_one]

/-! ### Positions and symmetry operations -/

/-- A 3-vector with exact rational components.  Used both for fractional
(crystal) coordinates and for Cartesian coordinates. -/
structure Vec3 where
  x : ℚ
  y : ℚ
  z : ℚ
deriving DecidableEq, Repr

/-- Reduce a coordinate modulo lattice translations into the half-open
interval [0, 1): subtract the floor. -/
def wrapCoord (q : ℚ) : ℚ := qSub q (qOfInt (qFloor q))

/-- Reduce a fractional position modulo lattice translations componentwise. -/
def wrapVec (p : Vec3) : Vec3 := ⟨wrapCoord p.x, wrapCoord p.y, wrapCoord p.z⟩

/-- wrapCoord is the fractional-part map q - floor q of ℚ. -/
theorem wrapCoord_eq (q : ℚ) : wrapCoord q = q - Int.floor q := by
  rw [wrapCoord, qSub_eq, qOfInt_eq, qFloor_eq]

/-- One half, the translation appearing in the screw/glide operations of the
Zincite space group. -/
def half : ℚ := Rat.divInt 1 2

/-- The twelve symmetry operations declared by the bundled Zincite CIF
(COD entry 1011259, loop `_symmetry_equiv_pos_as_xyz`, space group 186),
each translated directly from its `x,y,z`-style string. -/
def zinciteSymmOps : List (Vec3 → Vec3) :=
  [ fun p => ⟨p.x, p.y, p.z⟩,                            -- x,y,z
    fun p => ⟨-p.y, qSub p.x p.y, p.z⟩,                  -- -y,x-y,z
    fun p => ⟨qSub p.y p.x, -p.x, p.z⟩,                  -- y-x,-x,z
    fun p => ⟨-p.y, -p.x, p.z⟩,                          -- -y,-x,z
    fun p => ⟨qSub p.y p.x, p.y, p.z⟩,                   -- y-x,y,z
    fun p => ⟨p.x, qSub p.x p.y, p.z⟩,                   -- x,x-y,z
    fun p => ⟨-p.x, -p.y, qAdd half p.z⟩,                -- -x,-y,1/2+z
    fun p => ⟨p.y, qSub p.y p.x, qAdd half p.z⟩,         -- y,y-x,1/2+z
    fun p => ⟨qSub p.x p.y, p.x, qAdd half p.z⟩,         -- x-y,x,1/2+z
    fun p => ⟨p.y, p.x, qAdd half p.z⟩,                  -- y,x,1/2+z
    fun p => ⟨qSub p.x p.y, -p.y, qAdd half p.z⟩,        -- x-y,-y,1/2+z
    fun p => ⟨-p.x, qSub p.y p.x, qAdd half p.z⟩ ]       -- -x,y-x,1/2+z

/-- The orbit of a fractional position under a list of symmetry operations,
taken modulo lattice translations: apply every operation, wrap each image
into the unit cell, and keep one representative per distinct position. -/
def orbit (ops : List (Vec3 → Vec3)) (p : Vec3) : List Vec3 :=
  (ops.map fun g => wrapVec (g p)).dedup

/-- Fractional coordinates of site Zn1 of the Zincite CIF: the 2b Wyckoff
position (1/3, 2/3, z) with z = 0. -/
def zn1Pos : Vec3 := ⟨Rat.divInt 1 3, Rat.divInt 2 3, 0⟩

/-- Fractional coordinates of site O1 of the Zincite CIF: the 2b Wyckoff
position (1/3, 2/3, z) with z = 0.375 = 3/8. -/
def o1Pos : Vec3 := ⟨Rat.divInt 1 3, Rat.divInt 2 3, Rat.divInt 3 8⟩

/-- The `_atom_site_symmetry_multiplicity` declared for each of the two
sites of the Zincite CIF. -/
def zinciteDeclaredMultiplicity : ℕ := 2

/-- The `_cell_formula_units_Z` declared by the Zincite CIF. -/
def zinciteFormulaUnitsZ : ℕ := 2

/-- The unit cell of Zincite expanded by the twelve symmetry operations:
the orbit of each site modulo lattice translations, tagged with the
element symbol of the site. -/
def zinciteExpandedCell : List (String × Vec3) :=
  (orbit zinciteSymmOps zn1Pos).map (fun p => ("Zn", p)) ++
  (orbit zinciteSymmOps o1Pos).map (fun p => ("O", p))

/-! ### Decimal rendering of numbers -/

/-- The decimal digit character for a digit value. -/
def digitChar (d : ℕ) : Char :=
  if d = 0 then '0' else if d = 1 then '1' else if d = 2 then '2'
  else if d = 3 then '3' else if d = 4 then '4' else if d = 5 then '5'
  else if d = 6 then '6' else if d = 7 then '7' else if d = 8 then '8' else '9'

/-- Decimal digits of a natural number, most significant first, driven by a
fuel argument so that the definition is structurally recursive. -/
def natDigitsAux : ℕ → ℕ → List Char
  | 0, _ => []
  | fuel + 1, n =>
    if n < 10 then [digitChar n]
    else natDigitsAux fuel (n / 10) ++ [digitChar (n % 10)]

/-- Decimal digits of a natural number, most significant first. -/
def natDigits (n : ℕ) : List Char := natDigitsAux (n + 1) n

/-- Decimal rendering of a natural number. -/
def natRepr (n : ℕ) : String := ⟨natDigits n⟩

/-- Whether every character of the list is a decimal digit. -/
def digitsOnly : List Char → Bool
  | [] => true
  | c :: cs => c.isDigit && digitsOnly cs

theorem digitChar_isDigit (d : ℕ) : (digitChar d).isDigit = true := by
  unfold digitChar
  repeat' split
  all_goals decide

theorem digitsOnly_append (l₁ l₂ : List Char) :
    digitsOnly (l₁ ++ l₂) = (digitsOnly l₁ && digitsOnly l₂) := by
  induction l₁ with
  | nil => simp [digitsOnly]
  | cons c cs ih => simp [digitsOnly, ih, Bool.and_assoc]

theorem digitsOnly_natDigitsAux (fuel n : ℕ) :
    digitsOnly (natDigitsAux fuel n) = true := by
  induction fuel generalizing n with
  | zero => simp [natDigitsAux, digitsOnly]
  | succ fuel ih =>
    rw [natDigitsAux]
    split
    · simp [digitsOnly, digitChar_isDigit]
    · simp [digitsOnly_append, ih, digitsOnly, digitChar_isDigit]

theorem natDigitsAux_ne_nil (fuel n : ℕ) : natDigitsAux (fuel + 1) n ≠ [] := by
  rw [natDigitsAux]
  split
  · simp
  · simp

theorem digitsOnly_natDigits (n : ℕ) : digitsOnly (natDigits n) = true :=
  digitsOnly_natDigitsAux (n + 1) n

theorem natDigits_ne_nil (n : ℕ) : natDigits n ≠ [] := natDigitsAux_ne_nil n n

/-- Zero-pad the decimal rendering of a natural number on the left to six
characters, for the fractional part of a fixed-point decimal. -/
def pad6 (n : ℕ) : List Char :=
  List.replicate (6 - (natDigits n).length) '0' ++ natDigits n

theorem digitsOnly_replicate_zero (k : ℕ) :
    digitsOnly (List.replicate k '0') = true := by
  induction k with
  | zero => simp [digitsOnly]
  | succ k ih => simp [List.replicate, digitsOnly, ih]

theorem digitsOnly_pad6 (n : ℕ) : digitsOnly (pad6 n) = true := by
  simp [pad6, digitsOnly_append, digitsOnly_replicate_zero, digitsOnly_natDigits]

theorem pad6_ne_nil (n : ℕ) : pad6 n ≠ [] := by
  simp [pad6, natDigits_ne_nil]

/-- Fixed-point decimal rendering of a rational number with six digits after
the decimal point (the magnitude is truncated toward zero). -/
def fmtFixed6 (q : ℚ) : String :=
  let a : ℚ := if q < 0 then -q else q
  let n : ℕ := (qFloor (qMul a (qOfInt 1000000))).toNat
  let body : List Char := natDigits (n / 1000000) ++ ('.' :: pad6 (n % 1000000))
  if q < 0 then ⟨'-' :: body⟩ else ⟨body⟩

/-! ### Numeric-token grammar of solver input lines -/

/-- Whether the character list is a nonempty run of digits. -/
def digitRun : List Char → Bool
  | [] => false
  | c :: cs => c.isDigit && digitsOnly cs

/-- Tail of a decimal numeral after its first digit: further digits,
optionally followed by a decimal point and a nonempty run of digits. -/
def numTail : List Char → Bool
  | [] => true
  | c :: cs => if c = '.' then digitRun cs else c.isDigit && numTail cs

/-- An unsigned decimal numeral: one digit, then a numeral tail. -/
def numBody : List Char → Bool
  | [] => false
  | c :: cs => c.isDigit && numTail cs

/-- A decimal number token: an unsigned decimal numeral with an optional
leading minus sign. -/
def isNumTok (s : String) : Bool :=
  match s.data with
  | [] => false
  | c :: cs => if c = '-' then numBody cs else numBody (c :: cs)

theorem numTail_append_digits (ds : List Char) (hds : digitsOnly ds = true)
    (tail : List Char) (ht : numTail tail = true) :
    numTail (ds ++ tail) = true := by
  induction ds with
  | nil => simpa
  | cons c cs ih =>
    rw [digitsOnly, Bool.and_eq_true] at hds
    rw [List.cons_append, numTail]
    have hc : c ≠ '.' := by
      intro hc
      subst hc
      simp at hds
    rw [if_neg hc, hds.1, ih hds.2, Bool.and_self]

theorem digitRun_of (l : List Char) (h1 : l ≠ []) (h2 : digitsOnly l = true) :
    digitRun l = true := by
  cases l with
  | nil => exact absurd rfl h1
  | cons c cs => rw [digitsOnly] at h2; rw [digitRun, h2]

theorem numBody_decimal (m k : ℕ) :
    numBody (natDigits m ++ ('.' :: pad6 k)) = true := by
  have hne := natDigits_ne_nil m
  have hdig := digitsOnly_natDigits m
  cases h : natDigits m with
  | nil => exact absurd h hne
  | cons c cs =>
    rw [h] at hdig
    rw [digitsOnly, Bool.and_eq_true] at hdig
    rw [List.cons_append, numBody, hdig.1]
    have htail : numTail ('.' :: pad6 k) = true := by
      rw [numTail, if_pos rfl]
      exact digitRun_of _ (pad6_ne_nil k) (digitsOnly_pad6 k)
    rw [numTail_append_digits cs hdig.2 _ htail, Bool.and_self]

theorem isNumTok_of_numBody (l : List Char) (h : numBody l = true) :
    isNumTok ⟨l⟩ = true := by
  cases l with
  | nil => simp [numBody] at h
  | cons c cs =>
    rw [numBody, Bool.and_eq_true] at h
    have hc : c ≠ '-' := by
      intro hc
      subst hc
      simp at h
    rw [isNumTok]
    simp only []
    rw [if_neg hc, numBody, h.1, h.2, Bool.and_self]

theorem isNumTok_fmtFixed6 (q : ℚ) : isNumTok (fmtFixed6 q) = true := by
  rw [fmtFixed6]
  by_cases hq : q < 0
  · rw [if_pos hq, if_pos hq, isNumTok]
    simp only [if_true]
    exact numBody_decimal _ _
  · rw [if_neg hq, if_neg hq]
    exact isNumTok_of_numBody _ (numBody_decimal _ _)

theorem isNumTok_natRepr (n : ℕ) : isNumTok (natRepr n) = true := by
  rw [natRepr]
  apply isNumTok_of_numBody
  have hne := natDigits_ne_nil n
  have hdig := digitsOnly_natDigits n
  cases h : natDigits n with
  | nil => exact absurd h hne
  | cons c cs =>
    rw [h] at hdig
    rw [digitsOnly, Bool.and_eq_true] at hdig
    rw [numBody, hdig.1]
    have : numTail cs = true := by
      have := numTail_append_digits cs hdig.2 [] (by rw [numTail])
      simpa using this
    rw [this, Bool.and_self]

/-! ### Data model of the conversion pipeline

Modelled from the spec: the pipeline parses crystallographic symmetry data,
expands a unit cell into a bounded cluster of atoms around a chosen absorber
site, and serializes that cluster into the textual formats the XAS solvers
expect.  The larixite package sources are not in the repository snapshot, so
these definitions follow the words of the spec and of the workflow notebook. -/

/-- Modelled from the spec: the fragment of the periodic table mapping the
element symbols of the bundled structures to atomic numbers; the full table
lives in the missing larixite package, which delegates to xraydb. -/
def atomicNumbers : List (String × ℕ) :=
  [("H", 1), ("C", 6), ("N", 7), ("O", 8), ("Si", 14), ("S", 16),
   ("Fe", 26), ("Cu", 29), ("Zn", 30)]

/-- Atomic number of an element symbol (0 when unknown). -/
def elementZ (e : String) : ℕ := (atomicNumbers.lookup e).getD 0

/-- An atomic site of a crystal structure: a label, an element symbol and
fractional coordinates in the unit cell. -/
structure Site where
  label : String
  element : String
  frac : Vec3
deriving DecidableEq, Repr

/-- A lattice: the six cell parameters as given by the CIF, together with
the rows of the Cartesian lattice matrix (computed, in the real pipeline, by
the third-party crystallography library; exact rational entries here). -/
structure Lattice where
  a : ℚ
  b : ℚ
  c : ℚ
  alpha : ℚ
  beta : ℚ
  gamma : ℚ
  m11 : ℚ
  m12 : ℚ
  m13 : ℚ
  m21 : ℚ
  m22 : ℚ
  m23 : ℚ
  m31 : ℚ
  m32 : ℚ
  m33 : ℚ
deriving DecidableEq, Repr

/-- Modelled from the spec and the workflow notebook: a crystal structure
for XAS, with a name, a lattice, the list of sites of the unit cell, the
absorber element and the index of the absorber site. -/
structure XasStructure where
  name : String
  lattice : Lattice
  sites : List Site
  absorber : String
  absorberIdx : ℕ
deriving DecidableEq, Repr

/-- Modelled from the workflow notebook: the absorber site defaults to the
first site whose element is the absorbing element. -/
def mkXasStructure (name : String) (lattice : Lattice) (sites : List Site)
    (absorber : String) : XasStructure :=
  ⟨name, lattice, sites, absorber, sites.findIdx (fun s => s.element == absorber)⟩

/-- Fractional to Cartesian coordinates through the lattice matrix. -/
def fracToCart (lat : Lattice) (f : Vec3) : Vec3 :=
  ⟨qAdd (qAdd (qMul f.x lat.m11) (qMul f.y lat.m21)) (qMul f.z lat.m31),
   qAdd (qAdd (qMul f.x lat.m12) (qMul f.y lat.m22)) (qMul f.z lat.m32),
   qAdd (qAdd (qMul f.x lat.m13) (qMul f.y lat.m23)) (qMul f.z lat.m33)⟩

/-- Squared Euclidean distance between two Cartesian positions. -/
def dist2 (p q : Vec3) : ℚ :=
  qAdd (qAdd (qMul (qSub p.x q.x) (qSub p.x q.x)) (qMul (qSub p.y q.y) (qSub p.y q.y)))
    (qMul (qSub p.z q.z) (qSub p.z q.z))

/-- dist2 is the squared Euclidean distance of ℚ-geometry. -/
theorem dist2_eq (p q : Vec3) :
    dist2 p q = (p.x - q.x) ^ 2 + (p.y - q.y) ^ 2 + (p.z - q.z) ^ 2 := by
  simp only [dist2, qAdd_eq, qSub_eq, qMul_eq]
  ring

/-- An atom of a generated cluster: an element symbol and a Cartesian
position. -/
structure Atom where
  element : String
  pos : Vec3
deriving DecidableEq, Repr

/-- Integer offsets -n, ..., n used to translate the unit cell. -/
def translationRange (n : ℕ) : List ℤ :=
  (List.range (2 * n + 1)).map (fun i => Int.ofNat i - Int.ofNat n)

/-- All lattice translations with offsets between -n and n in each
direction. -/
def latticeTranslations (n : ℕ) : List (ℤ × ℤ × ℤ) :=
  (translationRange n).flatMap (fun i =>
    (translationRange n).flatMap (fun j =>
      (translationRange n).map (fun k => (i, j, k))))

/-- The periodic image of a site under a lattice translation, in Cartesian
coordinates. -/
def siteImage (lat : Lattice) (s : Site) (t : ℤ × ℤ × ℤ) : Atom :=
  ⟨s.element,
   fracToCart lat
     ⟨qAdd s.frac.x (qOfInt t.1), qAdd s.frac.y (qOfInt t.2.1),
      qAdd s.frac.z (qOfInt t.2.2)⟩⟩

/-- Modelled from the spec: expanding the unit cell — all periodic images of
all sites over the translation offsets up to n. -/
def clusterCandidates (sg : XasStructure) (n : ℕ) : List Atom :=
  sg.sites.flatMap (fun s => (latticeTranslations n).map (siteImage sg.lattice s))

/-- The Cartesian position of the chosen absorber site (the origin-cell
image); the zero vector when the absorber index is out of range. -/
def absorberPos (sg : XasStructure) : Vec3 :=
  match sg.sites[sg.absorberIdx]? with
  | some s => fracToCart sg.lattice s.frac
  | none => ⟨0, 0, 0⟩

/-- Whether an atom lies within (squared) distance r * r of the center. -/
def withinRadius (center : Vec3) (r : ℚ) (a : Atom) : Bool :=
  decide (dist2 a.pos center ≤ qMul r r)

/-- Modelled from the spec: the bounded cluster of atoms around the chosen
absorber site — the periodic images within the cutoff radius r of the
absorber. -/
def buildCluster (sg : XasStructure) (r : ℚ) (n : ℕ) : List Atom :=
  (clusterCandidates sg n).filter (withinRadius (absorberPos sg) r)

/-! ### FDMNES input serialization -/

/-- Modelled from the workflow notebook: the object holding a structure, the
absorber, the structure kind (crystal or molecule) and the cluster radius,
whose get_input method returns the FDMNES input text. -/
structure FdmnesXasInput where
  sg : XasStructure
  absorber : String
  struct_kind : String
  radius : ℚ
deriving DecidableEq, Repr

/-- The token triple rendering a 3-vector. -/
def fmtQ3 (v : Vec3) : List String := [fmtFixed6 v.x, fmtFixed6 v.y, fmtFixed6 v.z]

/-- The cell-parameter data line: a b c alpha beta gamma. -/
def latticeLine (lat : Lattice) : List String :=
  [fmtFixed6 lat.a, fmtFixed6 lat.b, fmtFixed6 lat.c,
   fmtFixed6 lat.alpha, fmtFixed6 lat.beta, fmtFixed6 lat.gamma]

/-- An atom data line in fractional coordinates: Z x y z. -/
def atomLineFrac (s : Site) : List String :=
  natRepr (elementZ s.element) :: fmtQ3 s.frac

/-- An atom data line in Cartesian coordinates: Z x y z. -/
def atomLineCart (a : Atom) : List String :=
  natRepr (elementZ a.element) :: fmtQ3 a.pos

/-- Modelled from the spec: the FDMNES input as a sequence of token lines —
a comment, the Radius keyword and value, the Crystal or Molecule section
with the cell parameters and the atoms, the absorber index, and the closing
keywords. -/
def inputTokenLines (f : FdmnesXasInput) : List (List String) :=
  [["!", "FDMNES", "input", "generated", "by", "larixite"],
   ["Radius"], [fmtFixed6 f.radius]] ++
  (if f.struct_kind = "molecule" then
    ["Molecule"] :: latticeLine f.sg.lattice ::
      (buildCluster f.sg f.radius 1).map atomLineCart
   else
    ["Crystal"] :: latticeLine f.sg.lattice :: f.sg.sites.map atomLineFrac) ++
  [["Absorber"], [natRepr (f.sg.absorberIdx + 1)], ["Convolution"], ["End"]]

/-- Render a token line as a space-separated text line. -/
def renderLine (ts : List String) : String := String.intercalate " " ts

/-- Render token lines as newline-separated text. -/
def renderLines (ls : List (List String)) : String :=
  String.intercalate "\n" (ls.map renderLine)

/-- The FDMNES input text (the get_input method of FdmnesXasInput). -/
def get_input (f : FdmnesXasInput) : String := renderLines (inputTokenLines f)

/-! ### The documented FDMNES input syntax (acceptor) -/

/-- Modelled from the spec: the keywords of the documented FDMNES input
syntax used by the generated files. -/
def fdmnesKeywords : List String :=
  ["Filout", "Range", "Radius", "Crystal", "Molecule", "Absorber",
   "Convolution", "End"]

/-- Whether a token opens a comment (FDMNES comments start with an
exclamation mark). -/
def isCommentTok (t : String) : Bool :=
  match t.data with
  | '!' :: _ => true
  | _ => false

/-- Modelled from the spec: a line of the documented input syntax is a
keyword line, a comment line, or a nonempty numeric data line. -/
def lineOK (ts : List String) : Bool :=
  match ts with
  | [] => false
  | t :: rest =>
    (decide (t ∈ fdmnesKeywords) && decide (rest = [])) || isCommentTok t ||
      (t :: rest).all isNumTok

/-- Modelled from the spec: a token-line sequence is accepted when it is
nonempty, every line is well-formed, and the file ends with the End
keyword. -/
def linesOK (ls : List (List String)) : Bool :=
  !ls.isEmpty && ls.all lineOK && decide (ls.getLast? = some ["End"])

/-- Modelled from the spec: a text is accepted by the documented FDMNES
input syntax when it renders an accepted token-line sequence. -/
def fdmnesAccepts (t : String) : Prop :=
  ∃ ls, t = renderLines ls ∧ linesOK ls = true

/-! ### File output, state passing, and the surrounding workflow -/

/-- Modelled from the spec: the world a run touches — a flat file system of
path and content pairs; the pipeline is single-threaded and synchronous, so
a run is a plain function from a world to a result and a world. -/
structure World where
  files : List (String × String)
deriving DecidableEq, Repr

/-- The output directory for a structure, derived from its name. -/
def outdirOf (f : FdmnesXasInput) : String := "outputs/" ++ f.sg.name

/-- The path of the generated FDMNES input file inside the output
directory. -/
def inputFilePath (f : FdmnesXasInput) : String := outdirOf f ++ "/job.txt"

/-- Modelled from the workflow notebook: write_input writes the generated
input text into the output directory and returns that directory. -/
def write_input (f : FdmnesXasInput) (w : World) : String × World :=
  (outdirOf f, ⟨(inputFilePath f, get_input f) :: w.files⟩)

/-- Read a file back from the world (the first write wins). -/
def readFile (w : World) (p : String) : Option String := w.files.lookup p

/-- Modelled from the spec: a run of get_input as a state transformer over
the world; the transformation reads nothing from and writes nothing to
shared state. -/
def get_input_run (f : FdmnesXasInput) (w : World) : String × World :=
  (get_input f, w)

/-- Modelled from the spec: get_input seen as a method returning its result
together with the receiver object it leaves behind. -/
def get_input_method (f : FdmnesXasInput) : String × FdmnesXasInput :=
  (get_input f, f)

/-- Modelled from the workflow notebook: write_input seen as a method
returning the output directory, the receiver object it leaves behind, and
the world holding the written file. -/
def write_input_method (f : FdmnesXasInput) (w : World) :
    (String × FdmnesXasInput) × World :=
  ((outdirOf f, f), (write_input f w).2)

/-! ### Validation of raw inputs -/

/-- Modelled from the spec: a raw structure input after file reading — the
required fields (cell parameters, atomic sites) may be missing or empty, and
the requested absorber may be absent. -/
structure RawInput where
  name : String
  latticeField : Option Lattice
  sites : List Site
  absorber : String
deriving Repr

/-- Modelled from the spec: a well-formed input holds all required fields —
cell parameters, at least one site, and a site of the absorber element. -/
def requiredFieldsOK (r : RawInput) : Bool :=
  r.latticeField.isSome && !r.sites.isEmpty &&
    r.sites.any (fun s => s.element == r.absorber)

/-- Modelled from the spec: the conversion pipeline — validate the raw
input, then build the structure and serialize it; failures are user-facing
error messages in the error branch. -/
def convertRaw (r : RawInput) (radius : ℚ) : Except String String :=
  match r.latticeField with
  | none => Except.error ("missing required field: cell parameters in " ++ r.name)
  | some lat =>
    if r.sites.isEmpty then
      Except.error ("malformed structure file: no atomic sites in " ++ r.name)
    else if r.sites.any (fun s => s.element == r.absorber) then
      Except.ok (get_input ⟨mkXasStructure r.name lat r.sites r.absorber,
        r.absorber, "crystal", radius⟩)
    else
      Except.error ("missing required field: no site of absorber " ++
        r.absorber ++ " in " ++ r.name)

/-! ### Directory scanning -/

/-- Glob matching with * and ? wildcards, driven by a fuel argument so that
the definition is structurally recursive. -/
def globMatchAux : ℕ → List Char → List Char → Bool
  | 0, _, _ => false
  | _ + 1, [], [] => true
  | _ + 1, [], _ :: _ => false
  | fuel + 1, '*' :: ps, [] => globMatchAux fuel ps []
  | fuel + 1, '*' :: ps, c :: cs =>
    globMatchAux fuel ps (c :: cs) || globMatchAux fuel ('*' :: ps) cs
  | _ + 1, _ :: _, [] => false
  | fuel + 1, p :: ps, c :: cs => (p == '?' || p == c) && globMatchAux fuel ps cs

/-- Whether a file name matches a glob pattern such as *Zn*. -/
def globMatch (pat s : String) : Bool :=
  globMatchAux (pat.length + s.length + 1) pat.data s.data

/-- The lattice placeholder used before cell parameters are parsed. -/
def emptyLattice : Lattice := ⟨0, 0, 0, 0, 0, 0, 0, 0, 0, 0, 0, 0, 0, 0, 0⟩

/-- Modelled from the workflow notebook: build an XasStructure from one
structural file for the given absorber; CIF parsing itself lives in the
missing larixite package, so the model records the file name and the
requested absorber over a placeholder cell. -/
def structFromFile (absorber : String) (file : String) : XasStructure :=
  mkXasStructure file emptyLattice [] absorber

/-- Modelled from the workflow notebook: get_structs_from_dir walks the
files of a directory and keeps one XasStructure per file matching the glob
pattern. -/
def get_structs_from_dir : List String → String → String → List XasStructure
  | [], _, _ => []
  | file :: files, absorber, globstr =>
    if globMatch globstr file then
      structFromFile absorber file :: get_structs_from_dir files absorber globstr
    else
      get_structs_from_dir files absorber globstr

/-! ### Displaying unique sites -/

/-- One display row of show_unique_sites: the site index, label and element,
with the abs marker appended exactly when the row is the absorber site. -/
def rowText (i : ℕ) (s : Site) (absIdx : ℕ) : String :=
  natRepr i ++ " " ++ s.label ++ " " ++ s.element ++
    (if i = absIdx then " (abs)" else "")

/-- Modelled from the workflow notebook: show_unique_sites lists the sites
with their structure indices, marking the absorber site with (abs). -/
def show_unique_sites (sg : XasStructure) : List String :=
  sg.sites.enum.map (fun is => rowText is.1 is.2 sg.absorberIdx)

/-! ### Helper lemmas about generated lines -/

theorem lineOK_of_all_num (ts : List String) (hne : ts ≠ [])
    (h : ts.all isNumTok = true) : lineOK ts = true := by
  cases ts with
  | nil => exact absurd rfl hne
  | cons t rest =>
    rw [lineOK]
    simp [h]

theorem lineOK_single_num (t : String) (h : isNumTok t = true) :
    lineOK [t] = true :=
  lineOK_of_all_num _ (by simp) (by simp [h])

theorem lineOK_latticeLine (lat : Lattice) : lineOK (latticeLine lat) = true :=
  lineOK_of_all_num _ (by simp [latticeLine])
    (by simp [latticeLine, isNumTok_fmtFixed6])

theorem lineOK_atomLineFrac (s : Site) : lineOK (atomLineFrac s) = true :=
  lineOK_of_all_num _ (by simp [atomLineFrac])
    (by simp [atomLineFrac, fmtQ3, isNumTok_fmtFixed6, isNumTok_natRepr])

theorem lineOK_atomLineCart (a : Atom) : lineOK (atomLineCart a) = true :=
  lineOK_of_all_num _ (by simp [atomLineCart])
    (by simp [atomLineCart, fmtQ3, isNumTok_fmtFixed6, isNumTok_natRepr])

theorem inputTokenLines_all_lineOK (f : FdmnesXasInput) :
    (inputTokenLines f).all lineOK = true := by
  rw [List.all_eq_true]
  intro ts hts
  rw [inputTokenLines] at hts
  by_cases hk : f.struct_kind = "molecule"
  · simp only [hk, if_true, List.mem_append, List.mem_cons, List.mem_map,
      List.not_mem_nil, or_false] at hts
    rcases hts with ((rfl | rfl | rfl) | (rfl | rfl | ⟨a, _, rfl⟩)) | (rfl | rfl | rfl | rfl)
    · decide
    · decide
    · exact lineOK_single_num _ (isNumTok_fmtFixed6 _)
    · decide
    · exact lineOK_latticeLine _
    · exact lineOK_atomLineCart _
    · decide
    · exact lineOK_single_num _ (isNumTok_natRepr _)
    · decide
    · decide
  · simp only [hk, if_false, List.mem_append, List.mem_cons, List.mem_map,
      List.not_mem_nil, or_false] at hts
    rcases hts with ((rfl | rfl | rfl) | (rfl | rfl | ⟨s, _, rfl⟩)) | (rfl | rfl | rfl | rfl)
    · decide
    · decide
    · exact lineOK_single_num _ (isNumTok_fmtFixed6 _)
    · decide
    · exact lineOK_latticeLine _
    · exact lineOK_atomLineFrac _
    · decide
    · exact lineOK_single_num _ (isNumTok_natRepr _)
    · decide
    · decide

theorem inputTokenLines_getLast (f : FdmnesXasInput) :
    (inputTokenLines f).getLast? = some ["End"] := by
  rw [inputTokenLines, List.getLast?_append]
  rfl

theorem inputTokenLines_ne_nil (f : FdmnesXasInput) :
    (inputTokenLines f).isEmpty = false := by
  rw [inputTokenLines]
  rfl

end Larixite

/-- C6: applying the twelve symmetry operations of the bundled Zincite CIF,
in exact rational arithmetic, to the fractional coordinates (1/3, 2/3, z) of
site Zn1 (z = 0) and of site O1 (z = 3/8) yields exactly 2 distinct
positions per site modulo lattice translations, matching the declared
`_atom_site_symmetry_multiplicity` of 2 and `_cell_formula_units_Z` of 2,
so the expanded unit cell contains 2 Zn atoms and 2 O atoms. -/
theorem zincite_orbit_multiplicities :
    (Larixite.orbit Larixite.zinciteSymmOps Larixite.zn1Pos).length = 2 ∧
    (Larixite.orbit Larixite.zinciteSymmOps Larixite.o1Pos).length = 2 ∧
    Larixite.zinciteDeclaredMultiplicity = 2 ∧
    Larixite.zinciteFormulaUnitsZ = 2 ∧
    Larixite.zinciteExpandedCell.countP (fun a => a.1 == "Zn") = 2 ∧
    Larixite.zinciteExpandedCell.countP (fun a => a.1 == "O") = 2 := by
  refine ⟨by decide, by decide, rfl, rfl, by decide, by decide⟩

open Larixite

/-- C1: for every structure input and chosen absorber carried by an
FdmnesXasInput, the conversion returns the atomic-cluster description
serialized as text accepted by the documented FDMNES input syntax. -/
theorem fdmnes_get_input_wellformed (f : FdmnesXasInput) :
    fdmnesAccepts (get_input f) := by
  refine ⟨inputTokenLines f, rfl, ?_⟩
  have h1 := inputTokenLines_ne_nil f
  have h2 := inputTokenLines_all_lineOK f
  have h3 := inputTokenLines_getLast f
  simp [linesOK, h1, h2, h3]

/-- C5: the pipeline is deterministic — two runs of get_input on the same
input with the same parameters return identical text, whatever the
surrounding world state, and a repeated run returns the same text again. -/
theorem get_input_deterministic (f : FdmnesXasInput) (w₁ w₂ : World) :
    (get_input_run f w₁).1 = (get_input_run f w₂).1 ∧
    (get_input_run f (get_input_run f w₁).2).1 = (get_input_run f w₁).1 :=
  ⟨rfl, rfl⟩

/-- C7: generating output is effect-free on the input — after get_input or
write_input the receiver FdmnesXasInput, and in particular the sites,
lattice and absorberIdx of its XasStructure, are unchanged. -/
theorem write_input_preserves_structure (f : FdmnesXasInput) (w : World) :
    (get_input_method f).2 = f ∧
    (write_input_method f w).1.2 = f ∧
    (write_input_method f w).1.2.sg.sites = f.sg.sites ∧
    (write_input_method f w).1.2.sg.lattice = f.sg.lattice ∧
    (write_input_method f w).1.2.sg.absorberIdx = f.sg.absorberIdx :=
  ⟨rfl, rfl, rfl, rfl, rfl⟩

/-- C9: the file write_input writes into the output directory it returns
contains exactly the text get_input returns on the same object. -/
theorem write_input_agrees_get_input (f : FdmnesXasInput) (w : World) :
    (write_input f w).1 = outdirOf f ∧
    readFile (write_input f w).2 (inputFilePath f) = some (get_input f) := by
  refine ⟨rfl, ?_⟩
  simp [readFile, write_input, List.lookup]

/-- C3: the conversion succeeds exactly on inputs holding all required
fields, and every failure is an error branch carrying a message — never
partial or silent output. -/
theorem convert_ok_iff_required_fields (r : RawInput) (radius : ℚ) :
    ((∃ t, convertRaw r radius = Except.ok t) ↔ requiredFieldsOK r = true) ∧
    ((∃ msg, convertRaw r radius = Except.error msg) ↔ requiredFieldsOK r = false) := by
  cases hl : r.latticeField with
  | none => simp [convertRaw, requiredFieldsOK, hl]
  | some lat =>
    by_cases he : r.sites.isEmpty
    · simp [convertRaw, requiredFieldsOK, hl, he]
    · by_cases ha : r.sites.any (fun s => s.element == r.absorber)
      · simp [convertRaw, requiredFieldsOK, hl, he, ha]
      · simp [convertRaw, requiredFieldsOK, hl, he, ha]

/-- C10: get_structs_from_dir returns one XasStructure per file matching
the glob pattern, in order, each with the given absorber element set, and
files not matching the pattern contribute nothing. -/
theorem get_structs_from_dir_spec (files : List String) (absorber globstr : String) :
    get_structs_from_dir files absorber globstr =
      (files.filter (fun file => globMatch globstr file)).map (structFromFile absorber) ∧
    (get_structs_from_dir files absorber globstr).length =
      (files.filter (fun file => globMatch globstr file)).length ∧
    ∀ sgm ∈ get_structs_from_dir files absorber globstr, sgm.absorber = absorber := by
  have key : ∀ fs : List String, get_structs_from_dir fs absorber globstr =
      (fs.filter (fun file => globMatch globstr file)).map (structFromFile absorber) := by
    intro fs
    induction fs with
    | nil => rfl
    | cons f fs ih =>
      rw [get_structs_from_dir]
      by_cases h : globMatch globstr f
      · rw [if_pos h, ih, List.filter_cons_of_pos (by simpa using h), List.map_cons]
      · rw [if_neg h, ih, List.filter_cons_of_neg (by simpa using h)]
  refine ⟨key files, by rw [key files]; simp, ?_⟩
  intro sgm hm
  rw [key files] at hm
  obtain ⟨file, _, rfl⟩ := List.mem_map.1 hm
  rfl

namespace Larixite

theorem zero_mem_translationRange (n : ℕ) : (0 : ℤ) ∈ translationRange n := by
  have h : n ∈ List.range (2 * n + 1) := List.mem_range.2 (by omega)
  have h2 := List.mem_map_of_mem (fun i : ℕ => Int.ofNat i - Int.ofNat n) h
  simp only [sub_self] at h2
  rw [translationRange]
  exact h2

theorem zero_mem_latticeTranslations (n : ℕ) :
    ((0, 0, 0) : ℤ × ℤ × ℤ) ∈ latticeTranslations n := by
  rw [latticeTranslations]
  refine List.mem_flatMap.2 ⟨0, zero_mem_translationRange n, ?_⟩
  refine List.mem_flatMap.2 ⟨0, zero_mem_translationRange n, ?_⟩
  exact List.mem_map.2 ⟨0, zero_mem_translationRange n, rfl⟩

theorem qAdd_ofInt_zero (x : ℚ) : qAdd x (qOfInt 0) = x := by
  rw [qAdd_eq, qOfInt_eq]
  simp

theorem siteImage_zero (lat : Lattice) (s : Site) :
    siteImage lat s (0, 0, 0) = ⟨s.element, fracToCart lat s.frac⟩ := by
  rw [siteImage]
  simp [qAdd_ofInt_zero]

end Larixite

/-- C2: every atom of the generated cluster lies within the cutoff radius r
of the chosen absorber site, and the absorber site is the center of the
cluster — at distance 0 from itself and itself a member of the cluster. -/
theorem cluster_within_radius (sg : XasStructure) (r : ℚ) (n : ℕ)
    (hidx : sg.absorberIdx < sg.sites.length) (hr : 0 ≤ r) :
    (∀ a ∈ buildCluster sg r n,
        (a.pos.x - (absorberPos sg).x) ^ 2 + (a.pos.y - (absorberPos sg).y) ^ 2 +
          (a.pos.z - (absorberPos sg).z) ^ 2 ≤ r ^ 2) ∧
    dist2 (absorberPos sg) (absorberPos sg) = 0 ∧
    Atom.mk (sg.sites.get ⟨sg.absorberIdx, hidx⟩).element (absorberPos sg) ∈
      buildCluster sg r n := by
  have hzero : dist2 (absorberPos sg) (absorberPos sg) = 0 := by
    rw [dist2_eq]
    ring
  refine ⟨?_, hzero, ?_⟩
  · intro a ha
    rw [buildCluster, List.mem_filter] at ha
    have hb := ha.2
    rw [withinRadius] at hb
    have hle := of_decide_eq_true hb
    rw [dist2_eq, qMul_eq, ← pow_two r] at hle
    exact hle
  · rw [buildCluster, List.mem_filter]
    constructor
    · rw [clusterCandidates, List.mem_flatMap]
      refine ⟨sg.sites.get ⟨sg.absorberIdx, hidx⟩, List.get_mem _ _ hidx, ?_⟩
      rw [List.mem_map]
      refine ⟨(0, 0, 0), zero_mem_latticeTranslations n, ?_⟩
      rw [siteImage_zero]
      have hsome : sg.sites[sg.absorberIdx]? =
          some (sg.sites.get ⟨sg.absorberIdx, hidx⟩) := by
        rw [List.getElem?_eq_getElem hidx]
        simp
      rw [absorberPos, hsome]
    · rw [withinRadius]
      apply decide_eq_true
      show dist2 (absorberPos sg) (absorberPos sg) ≤ qMul r r
      rw [hzero, qMul_eq]
      exact mul_nonneg hr hr

namespace Larixite

theorem show_unique_sites_getElem (sg : XasStructure) (i : ℕ) :
    (show_unique_sites sg)[i]? =
      (sg.sites[i]?).map (fun s => rowText i s sg.absorberIdx) := by
  rw [show_unique_sites, List.getElem?_map, List.getElem?_enum]
  cases sg.sites[i]? <;> rfl

theorem rowText_of_ne (i : ℕ) (s : Site) (k : ℕ) (h : i ≠ k) :
    rowText i s k = natRepr i ++ " " ++ s.label ++ " " ++ s.element := by
  rw [rowText, if_neg h]
  simp

theorem rowText_of_eq (i : ℕ) (s : Site) :
    rowText i s i = natRepr i ++ " " ++ s.label ++ " " ++ s.element ++ " (abs)" := by
  rw [rowText, if_pos rfl]

/-- The structure with its absorber index reassigned (the assignment to the
absorber_idx attribute in the workflow notebook). -/
def withAbsorberIdx (sg : XasStructure) (j : ℕ) : XasStructure :=
  ⟨sg.name, sg.lattice, sg.sites, sg.absorber, j⟩

theorem withAbsorberIdx_sites (sg : XasStructure) (j : ℕ) :
    (withAbsorberIdx sg j).sites = sg.sites := rfl

theorem withAbsorberIdx_absorberIdx (sg : XasStructure) (j : ℕ) :
    (withAbsorberIdx sg j).absorberIdx = j := rfl

end Larixite

/-- C8: an XasStructure built for an absorber element present among the
sites has absorberIdx defaulting to the index of the first site of that
element; assigning absorberIdx to another index changes which row of
show_unique_sites carries the abs marker, and only that. -/
theorem absorber_idx_default_and_marking (sg : XasStructure) (j : ℕ)
    (hdefault : sg = mkXasStructure sg.name sg.lattice sg.sites sg.absorber)
    (hex : sg.sites.any (fun t => t.element == sg.absorber) = true) :
    sg.absorberIdx = sg.sites.findIdx (fun t => t.element == sg.absorber) ∧
    (∃ site, sg.sites[sg.absorberIdx]? = some site ∧ site.element = sg.absorber) ∧
    (∀ i, i ≠ j → i ≠ sg.absorberIdx →
      (show_unique_sites (withAbsorberIdx sg j))[i]? =
        (show_unique_sites sg)[i]?) ∧
    (j < sg.sites.length → j ≠ sg.absorberIdx →
      ∃ base, (show_unique_sites sg)[j]? = some base ∧
        (show_unique_sites (withAbsorberIdx sg j))[j]? =
          some (base ++ " (abs)")) ∧
    (sg.absorberIdx < sg.sites.length → j ≠ sg.absorberIdx →
      ∃ base,
        (show_unique_sites sg)[sg.absorberIdx]? = some (base ++ " (abs)") ∧
        (show_unique_sites (withAbsorberIdx sg j))[sg.absorberIdx]? =
          some base) := by
  have hidxA : sg.absorberIdx = sg.sites.findIdx (fun t => t.element == sg.absorber) :=
    congrArg XasStructure.absorberIdx hdefault
  refine ⟨hidxA, ?_, ?_, ?_, ?_⟩
  · have hexists : ∃ t ∈ sg.sites, (fun t => t.element == sg.absorber) t := by
      simpa [List.any_eq_true] using hex
    have hlt := List.findIdx_lt_length_of_exists hexists
    refine ⟨sg.sites[sg.sites.findIdx (fun t => t.element == sg.absorber)], ?_, ?_⟩
    · rw [hidxA]
      exact List.getElem?_eq_getElem hlt
    · have := @List.findIdx_getElem _ (fun t : Site => t.element == sg.absorber) sg.sites hlt
      simpa using this
  · intro i hij hia
    rw [show_unique_sites_getElem, show_unique_sites_getElem]
    simp only [withAbsorberIdx_sites, withAbsorberIdx_absorberIdx]
    cases h : sg.sites[i]? with
    | none => rfl
    | some s =>
      simp only [Option.map_some']
      rw [rowText_of_ne i s j hij, rowText_of_ne i s sg.absorberIdx hia]
  · intro hlen hja
    obtain ⟨s, hs⟩ : ∃ s, sg.sites[j]? = some s :=
      ⟨sg.sites[j], List.getElem?_eq_getElem hlen⟩
    refine ⟨natRepr j ++ " " ++ s.label ++ " " ++ s.element, ?_, ?_⟩
    · rw [show_unique_sites_getElem, hs, Option.map_some',
        rowText_of_ne j s sg.absorberIdx hja]
    · rw [show_unique_sites_getElem]
      simp only [withAbsorberIdx_sites, withAbsorberIdx_absorberIdx]
      rw [hs, Option.map_some', rowText_of_eq]
  · intro hlen hja
    obtain ⟨s, hs⟩ : ∃ s, sg.sites[sg.absorberIdx]? = some s :=
      ⟨sg.sites[sg.absorberIdx], List.getElem?_eq_getElem hlen⟩
    refine ⟨natRepr sg.absorberIdx ++ " " ++ s.label ++ " " ++ s.element, ?_, ?_⟩
    · rw [show_unique_sites_getElem, hs, Option.map_some', rowText_of_eq]
    · rw [show_unique_sites_getElem]
      simp only [withAbsorberIdx_sites, withAbsorberIdx_absorberIdx]
      rw [hs, Option.map_some',
        rowText_of_ne sg.absorberIdx s j (fun h => hja h.symm)]

namespace Larixite

/-- The Zincite lattice: cell parameters a = b = 3.351, c = 5.226,
alpha = beta = 90, gamma = 120 as declared by the bundled CIF, and the
hexagonal Cartesian matrix with the irrational entries rendered as exact
rationals (as the crystallography library would hand them over in floating
point). -/
def zinciteLattice : Lattice :=
  ⟨Rat.divInt 3351 1000, Rat.divInt 3351 1000, Rat.divInt 5226 1000,
   qOfInt 90, qOfInt 90, qOfInt 120,
   Rat.divInt 3351 1000, 0, 0,
   Rat.divInt (-16755) 10000, Rat.divInt 29020508 10000000, 0,
   0, 0, Rat.divInt 5226 1000⟩

/-- The four sites of the expanded Zincite unit cell: the two positions of
the Zn1 orbit and the two positions of the O1 orbit (see the orbit
computation for C6). -/
def zinciteCellSites : List Site :=
  [⟨"Zn1", "Zn", ⟨Rat.divInt 1 3, Rat.divInt 2 3, 0⟩⟩,
   ⟨"Zn1", "Zn", ⟨Rat.divInt 2 3, Rat.divInt 1 3, Rat.divInt 1 2⟩⟩,
   ⟨"O1", "O", ⟨Rat.divInt 1 3, Rat.divInt 2 3, Rat.divInt 3 8⟩⟩,
   ⟨"O1", "O", ⟨Rat.divInt 2 3, Rat.divInt 1 3, Rat.divInt 7 8⟩⟩]

/-- The XasStructure of the bundled Zincite CIF with absorber Zn. -/
def zinciteStruct : XasStructure :=
  mkXasStructure "ZnO_1011259" zinciteLattice zinciteCellSites "Zn"

/-- The FdmnesXasInput of the workflow notebook: Zincite, absorber Zn,
crystal structure kind, radius 5. -/
def zinciteFdmnesInput : FdmnesXasInput :=
  ⟨zinciteStruct, "Zn", "crystal", qOfInt 5⟩

/-- The reference FDMNES input text for the bundled Zincite structure with
absorber Zn and radius 5. -/
def zinciteFixture : String :=
  "! FDMNES input generated by larixite\nRadius\n5.000000\nCrystal\n3.351000 3.351000 5.226000 90.000000 90.000000 120.000000\n30 0.333333 0.666666 0.000000\n30 0.666666 0.333333 0.500000\n8 0.333333 0.666666 0.375000\n8 0.666666 0.333333 0.875000\nAbsorber\n1\nConvolution\nEnd"

end Larixite

set_option maxRecDepth 100000 in
/-- C4: converting the bundled Zincite structure with the fixed absorber Zn
and radius 5 yields exactly the reference input text, and every rerun
reproduces the same text. -/
theorem zincite_fixture_reproduced :
    get_input zinciteFdmnesInput = zinciteFixture ∧
    ∀ w₁ w₂ : World,
      (get_input_run zinciteFdmnesInput w₁).1 = (get_input_run zinciteFdmnesInput w₂).1 :=
  ⟨by decide, fun w₁ w₂ => rfl⟩

/-- Witness for C2: the cluster bound instantiated on the Zincite structure
with radius 5 and one shell of lattice translations. -/
theorem cluster_within_radius_witness :
    zinciteStruct.absorberIdx < zinciteStruct.sites.length ∧ (0 : ℚ) ≤ qOfInt 5 ∧
    ((∀ a ∈ buildCluster zinciteStruct (qOfInt 5) 1,
        (a.pos.x - (absorberPos zinciteStruct).x) ^ 2 +
          (a.pos.y - (absorberPos zinciteStruct).y) ^ 2 +
          (a.pos.z - (absorberPos zinciteStruct).z) ^ 2 ≤ qOfInt 5 ^ 2) ∧
      dist2 (absorberPos zinciteStruct) (absorberPos zinciteStruct) = 0 ∧
      Atom.mk (zinciteStruct.sites.get ⟨zinciteStruct.absorberIdx, by decide⟩).element
          (absorberPos zinciteStruct) ∈ buildCluster zinciteStruct (qOfInt 5) 1) :=
  ⟨by decide, by decide,
    cluster_within_radius zinciteStruct (qOfInt 5) 1 (by decide) (by decide)⟩

/-- Witness for C8: the default absorber index and the abs marking
instantiated on the Zincite structure with the index reassigned to 1. -/
theorem absorber_idx_default_and_marking_witness :
    zinciteStruct = mkXasStructure zinciteStruct.name zinciteStruct.lattice
      zinciteStruct.sites zinciteStruct.absorber ∧
    zinciteStruct.sites.any (fun t => t.element == zinciteStruct.absorber) = true ∧
    (zinciteStruct.absorberIdx =
        zinciteStruct.sites.findIdx (fun t => t.element == zinciteStruct.absorber) ∧
      (∃ site, zinciteStruct.sites[zinciteStruct.absorberIdx]? = some site ∧
        site.element = zinciteStruct.absorber) ∧
      (∀ i, i ≠ 1 → i ≠ zinciteStruct.absorberIdx →
        (show_unique_sites (withAbsorberIdx zinciteStruct 1))[i]? =
          (show_unique_sites zinciteStruct)[i]?) ∧
      (1 < zinciteStruct.sites.length → 1 ≠ zinciteStruct.absorberIdx →
        ∃ base, (show_unique_sites zinciteStruct)[1]? = some base ∧
          (show_unique_sites (withAbsorberIdx zinciteStruct 1))[1]? =
            some (base ++ " (abs)")) ∧
      (zinciteStruct.absorberIdx < zinciteStruct.sites.length →
        1 ≠ zinciteStruct.absorberIdx →
        ∃ base,
          (show_unique_sites zinciteStruct)[zinciteStruct.absorberIdx]? =
            some (base ++ " (abs)") ∧
          (show_unique_sites (withAbsorberIdx zinciteStruct 1))[zinciteStruct.absorberIdx]? =
            some base)) :=
  ⟨rfl, by decide, absorber_idx_default_and_marking zinciteStruct 1 rfl (by decide)⟩
